import Mathlib

/-
Verification development for the chess.com anti-cheat reputation server
(src/server/main.py).  The definitions below are a shallow embedding of the
server's core logic: report submission and aggregation, the confidence
classification policy, the ban operation, and the search query.  Floating
point risk scores are modelled as rationals; timestamps as naturals
(ISO-format strings compare chronologically, so only their order matters).
-/

namespace AntiCheat

/-- Game formats accepted by the report schema (regex bullet|blitz|rapid). -/
inductive GameFormat where
  | bullet
  | blitz
  | rapid
deriving DecidableEq

/-- Confidence levels assigned to a player aggregate. -/
inductive ConfLevel where
  | low
  | medium
  | high
  | confirmed
deriving DecidableEq

/-- Numeric tier of a confidence level, for stating monotonicity. -/
def ConfLevel.rank : ConfLevel → Nat
  | .low => 0
  | .medium => 1
  | .high => 2
  | .confirmed => 3

/-- JSON-like value: models the open-ended values of the optional factors
mapping, which the engine stores but never interprets. -/
inductive FactorValue where
  | str (s : String)
  | num (q : ℚ)
  | flag (b : Bool)
  | null
deriving DecidableEq

/-- Incoming report payload (the PlayerReport model): timestamp optional,
defaulted at submission time. -/
structure ReportInput where
  username : String
  risk_score : ℚ
  game_format : GameFormat
  timestamp : Option Nat := none
  reporter_hash : Option String := none
  factors : Option (List (String × FactorValue)) := none
  notes : Option String := none

/-- A stored raw report (timestamp already resolved). -/
structure Report where
  username : String
  risk_score : ℚ
  game_format : GameFormat
  timestamp : Nat
  reporter_hash : Option String
  factors : Option (List (String × FactorValue))
  notes : Option String

/-- Per-player reputation aggregate, one per case-folded username.  The
formats map models the Python dict with .get(key, 0) access. -/
structure PlayerRep where
  username : String
  total_reports : Nat
  risk_scores : List ℚ
  formats : GameFormat → Nat
  first_reported : Nat
  last_reported : Nat
  is_banned : Bool
  average_risk_score : ℚ
  confidence_level : ConfLevel

/-- The whole persisted state: the raw report log and the reputation
mapping.  The mapping is modelled as an association list in insertion
order, matching Python dict iteration order. -/
structure ServerState where
  reports : List Report
  reputation : List (String × PlayerRep)

/-- The empty initial state, also the fallback on load failure. -/
def emptyState : ServerState := { reports := [], reputation := [] }

/-- Models Python str.lower() as used for the aggregate key
(username.lower()); accurate on ASCII usernames. -/
def caseFold (s : String) : String := String.mk (s.data.map Char.toLower)

/-- Dict lookup on the insertion-ordered association list. -/
def lookupRep : List (String × PlayerRep) → String → Option PlayerRep
  | [], _ => none
  | (k, v) :: rest, key => if k = key then some v else lookupRep rest key

/-- Dict write: replace the entry in place when the key exists (Python
mutates the stored dict entry, keys are unique), otherwise append at the
end (dict insertion order). -/
def updateRep : List (String × PlayerRep) → String → PlayerRep →
    List (String × PlayerRep)
  | [], key, v => [(key, v)]
  | (k, w) :: rest, key, v =>
      if k = key then (key, v) :: rest else (k, w) :: updateRep rest key v

/-- The confidence classification policy (calculate_confidence_level). -/
def calculateConfidenceLevel (report_count : Nat) (avg_risk : ℚ) : ConfLevel :=
  if 10 ≤ report_count ∧ 80 ≤ avg_risk then .confirmed
  else if 5 ≤ report_count ∧ 70 ≤ avg_risk then .high
  else if 3 ≤ report_count ∧ 60 ≤ avg_risk then .medium
  else .low

/-- Fresh aggregate created on the first report for a key.  The source dict
initially lacks the average and confidence keys; they are created by the
fold that always follows in the same request, so the placeholders here are
never observable. -/
def initRep (inp : ReportInput) (ts : Nat) : PlayerRep :=
  { username := inp.username
    total_reports := 0
    risk_scores := []
    formats := fun _ => 0
    first_reported := ts
    last_reported := ts
    is_banned := false
    average_risk_score := 0
    confidence_level := .low }

/-- Folds one report into an aggregate: bump the count, append the score,
bump the per-format count, set last_reported, recompute the mean and the
confidence level.  Note the source recomputes the confidence level
unconditionally, with no is_banned check. -/
def foldInto (rep : PlayerRep) (inp : ReportInput) (ts : Nat) : PlayerRep :=
  let scores := rep.risk_scores ++ [inp.risk_score]
  let total := rep.total_reports + 1
  let avg := scores.sum / (scores.length : ℚ)
  { rep with
    total_reports := total
    risk_scores := scores
    last_reported := ts
    formats := fun f => if f = inp.game_format then rep.formats f + 1 else rep.formats f
    average_risk_score := avg
    confidence_level := calculateConfidenceLevel total avg }

/-- The raw report appended to the log by submit_report. -/
def mkReport (inp : ReportInput) (ts : Nat) : Report :=
  { username := inp.username
    risk_score := inp.risk_score
    game_format := inp.game_format
    timestamp := ts
    reporter_hash := inp.reporter_hash
    factors := inp.factors
    notes := inp.notes }

/-- Response body of a successful submit_report call. -/
structure SubmitResult where
  success : Bool
  message : String
  username : String
  total_reports : Nat
  confidence_level : ConfLevel
deriving DecidableEq

/-- The submit_report handler on an in-memory state: append the raw report,
create the aggregate when absent, fold, and answer with the updated count
and confidence level. -/
def submitReport (s : ServerState) (inp : ReportInput) (now : Nat) :
    ServerState × SubmitResult :=
  let ts := inp.timestamp.getD now
  let key := caseFold inp.username
  let rep0 := (lookupRep s.reputation key).getD (initRep inp ts)
  let rep := foldInto rep0 inp ts
  ({ reports := s.reports ++ [mkReport inp ts]
     reputation := updateRep s.reputation key rep },
   { success := true
     message := "Report submitted successfully"
     username := inp.username
     total_reports := rep.total_reports
     confidence_level := rep.confidence_level })

/-- Submit a batch of reports in order. -/
def submitAll (s : ServerState) (inps : List ReportInput) (now : Nat) : ServerState :=
  inps.foldl (fun st inp => (submitReport st inp now).1) s

/-- The full submit_report request cycle against the persisted state:
load, mutate in memory, save.  save_reports catches any write failure and
only logs it, so the handler's response never depends on the save outcome;
on failure the persisted contents stay exactly as before. -/
def submitReportWithSave (persisted : ServerState) (inp : ReportInput) (now : Nat)
    (saveOk : Bool) : ServerState × SubmitResult :=
  let r := submitReport persisted inp now
  (if saveOk then r.1 else persisted, r.2)

/-- Outcome of the mark-banned admin endpoint: either the success body or
an HTTPException with a status code and detail string. -/
inductive BanOutcome where
  | ok (message : String) (username : String) (is_banned : Bool)
  | httpError (statusCode : Nat) (detail : String)
deriving DecidableEq

/-- String form of an HTTPException, as produced by str(e) on the caught
exception: "code: detail". -/
def exceptionStr (code : Nat) (detail : String) : String :=
  toString code ++ ": " ++ detail

/-- The mark_player_banned handler.  When the key is missing the source
raises HTTPException(404) inside its own try block; the catch-all except
clause catches that exception and re-raises it as HTTPException(500,
str(e)), so the caller sees the generic 500, not the 404, and nothing is
saved.  When the key exists: set is_banned, force confidence_level to
confirmed when banning, leave it untouched when unbanning. -/
def markPlayerBanned (s : ServerState) (username : String) (banned : Bool) :
    ServerState × BanOutcome :=
  let key := caseFold username
  match lookupRep s.reputation key with
  | none => (s, .httpError 500 (exceptionStr 404 "Player not found"))
  | some rep =>
      let rep' := { rep with
        is_banned := banned
        confidence_level := if banned then .confirmed else rep.confidence_level }
      ({ s with reputation := updateRep s.reputation key rep' },
       .ok ("Player " ++ username ++ " marked as "
              ++ (if banned then "banned" else "not banned"))
          username banned)

/-- Rounding to two decimal places, modelling Python round(x, 2).  No claim
depends on behaviour at exact ties, where binary floats differ from
rationals. -/
def round2 (x : ℚ) : ℚ := (round (x * 100) : ℤ) / 100

/-- Projection of an aggregate into one search result entry. -/
structure SearchEntry where
  username : String
  total_reports : Nat
  average_risk_score : ℚ
  confidence_level : ConfLevel
  last_reported : Nat
  is_banned : Bool
deriving DecidableEq

/-- The search filter: keep an aggregate when it meets both thresholds and,
when a confidence filter is supplied, has exactly that level. -/
def matchesSearch (minReports : Nat) (minRisk : ℚ) (conf : Option ConfLevel)
    (rep : PlayerRep) : Bool :=
  decide (minReports ≤ rep.total_reports) &&
  decide (minRisk ≤ rep.average_risk_score) &&
  (match conf with
   | none => true
   | some c => decide (rep.confidence_level = c))

/-- Projection used for each kept aggregate. -/
def searchEntryOf (rep : PlayerRep) : SearchEntry :=
  { username := rep.username
    total_reports := rep.total_reports
    average_risk_score := round2 rep.average_risk_score
    confidence_level := rep.confidence_level
    last_reported := rep.last_reported
    is_banned := rep.is_banned }

/-- Filtered, projected search results in mapping iteration order. -/
def searchFiltered (s : ServerState) (minReports : Nat) (minRisk : ℚ)
    (conf : Option ConfLevel) : List SearchEntry :=
  (s.reputation.filter (fun kr => matchesSearch minReports minRisk conf kr.2)).map
    (fun kr => searchEntryOf kr.2)

/-- The results list after the stable descending sort on total_reports
(Python list.sort with reverse=True). -/
def searchSorted (s : ServerState) (minReports : Nat) (minRisk : ℚ)
    (conf : Option ConfLevel) : List SearchEntry :=
  (searchFiltered s minReports minRisk conf).mergeSort
    (fun a b => decide (b.total_reports ≤ a.total_reports))

/-- Response body of the search endpoint. -/
structure SearchResult where
  total_found : Nat
  players : List SearchEntry
deriving DecidableEq

/-- The search_suspicious_players handler: filter, sort descending by
total_reports, report the pre-truncation count, truncate to limit. -/
def searchSuspiciousPlayers (s : ServerState) (minReports : Nat) (minRisk : ℚ)
    (conf : Option ConfLevel) (limit : Nat) : SearchResult :=
  let results := searchSorted s minReports minRisk conf
  { total_found := results.length
    players := results.take limit }

/-- Read projection returned by get_player_reputation when found. -/
structure ReputationView where
  username : String
  total_reports : Nat
  average_risk_score : ℚ
  confidence_level : ConfLevel
  first_reported : Nat
  last_reported : Nat
  report_count_by_format : GameFormat → Nat
  is_banned : Bool

/-- Result of the player lookup endpoint: a soft not-found, not an error. -/
inductive RepLookupResult where
  | notFound (username : String)
  | found (view : ReputationView)

/-- The get_player_reputation handler. -/
def getPlayerReputation (s : ServerState) (username : String) : RepLookupResult :=
  match lookupRep s.reputation (caseFold username) with
  | none => .notFound username
  | some rep =>
      .found
        { username := rep.username
          total_reports := rep.total_reports
          average_risk_score := round2 rep.average_risk_score
          confidence_level := rep.confidence_level
          first_reported := rep.first_reported
          last_reported := rep.last_reported
          report_count_by_format := rep.formats
          is_banned := rep.is_banned }

/-- A minimal valid report input used in scenarios: a username, a score,
format blitz, an explicit timestamp. -/
def mkInput (u : String) (q : ℚ) (ts : Nat) : ReportInput :=
  { username := u, risk_score := q, game_format := .blitz, timestamp := some ts }

/-- Count-and-length consistency of one aggregate: the count equals the
number of stored scores, the per-format counts sum to it, and the stored
mean is the arithmetic mean of the stored scores. -/
def aggWf (rep : PlayerRep) : Prop :=
  rep.total_reports = rep.risk_scores.length ∧
  rep.formats .bullet + rep.formats .blitz + rep.formats .rapid = rep.total_reports ∧
  (rep.risk_scores ≠ [] →
    rep.average_risk_score = rep.risk_scores.sum / (rep.risk_scores.length : ℚ))

/-- Every aggregate in the state is consistent. -/
def stateWf (s : ServerState) : Prop :=
  ∀ kr ∈ s.reputation, aggWf kr.2

/-- Unfolding lookup at a matching head entry. -/
theorem lookupRep_cons_self (k : String) (v : PlayerRep)
    (rest : List (String × PlayerRep)) :
    lookupRep ((k, v) :: rest) k = some v := by
  show (if k = k then some v else lookupRep rest k) = some v
  exact if_pos rfl

/-- Unfolding lookup past a non-matching head entry. -/
theorem lookupRep_cons_ne (k key : String) (v : PlayerRep)
    (rest : List (String × PlayerRep)) (h : k ≠ key) :
    lookupRep ((k, v) :: rest) key = lookupRep rest key := by
  show (if k = key then some v else lookupRep rest key) = lookupRep rest key
  exact if_neg h

/-- Dict write then lookup of the same key yields the written value. -/
theorem lookupRep_updateRep_self (m : List (String × PlayerRep)) (key : String)
    (v : PlayerRep) : lookupRep (updateRep m key v) key = some v := by
  induction m with
  | nil => simp [updateRep, lookupRep_cons_self]
  | cons p rest ih =>
    obtain ⟨k, w⟩ := p
    by_cases hk : k = key
    · simp [updateRep, hk, lookupRep_cons_self]
    · rw [updateRep, if_neg hk, lookupRep_cons_ne _ _ _ _ hk]
      exact ih

/-- Dict write leaves lookups of other keys unchanged. -/
theorem lookupRep_updateRep_other (m : List (String × PlayerRep)) (key k' : String)
    (v : PlayerRep) (h : k' ≠ key) :
    lookupRep (updateRep m key v) k' = lookupRep m k' := by
  induction m with
  | nil =>
    show lookupRep [(key, v)] k' = lookupRep [] k'
    rw [lookupRep_cons_ne _ _ _ _ (Ne.symm h)]
  | cons p rest ih =>
    obtain ⟨k, w⟩ := p
    by_cases hk : k = key
    · subst hk
      rw [updateRep, if_pos rfl, lookupRep_cons_ne _ _ _ _ (Ne.symm h),
        lookupRep_cons_ne _ _ _ _ (Ne.symm h)]
    · by_cases hk' : k = k'
      · subst hk'
        rw [updateRep, if_neg hk, lookupRep_cons_self, lookupRep_cons_self]
      · rw [updateRep, if_neg hk, lookupRep_cons_ne _ _ _ _ hk',
          lookupRep_cons_ne _ _ _ _ hk']
        exact ih

/-- A successful lookup exposes a member of the association list. -/
theorem mem_of_lookupRep (m : List (String × PlayerRep)) (key : String)
    (v : PlayerRep) (h : lookupRep m key = some v) : (key, v) ∈ m := by
  induction m with
  | nil => simp [lookupRep] at h
  | cons p rest ih =>
    obtain ⟨k, w⟩ := p
    by_cases hk : k = key
    · subst hk
      rw [lookupRep_cons_self] at h
      injection h with h
      subst h
      exact List.mem_cons_self _ _
    · rw [lookupRep_cons_ne _ _ _ _ hk] at h
      exact List.mem_cons_of_mem _ (ih h)

/-- Every entry of an updated map is the written binding or an entry of
the original map. -/
theorem mem_updateRep (m : List (String × PlayerRep)) (key : String)
    (v : PlayerRep) (p : String × PlayerRep) (h : p ∈ updateRep m key v) :
    p = (key, v) ∨ p ∈ m := by
  induction m with
  | nil => simp [updateRep] at h; exact Or.inl h
  | cons q rest ih =>
    obtain ⟨k, w⟩ := q
    by_cases hk : k = key
    · rw [updateRep, if_pos hk] at h
      rcases List.mem_cons.mp h with h1 | h2
      · exact Or.inl h1
      · exact Or.inr (List.mem_cons_of_mem _ h2)
    · rw [updateRep, if_neg hk] at h
      rcases List.mem_cons.mp h with h1 | h2
      · exact Or.inr (h1 ▸ List.mem_cons_self _ _)
      · rcases ih h2 with h3 | h4
        · exact Or.inl h3
        · exact Or.inr (List.mem_cons_of_mem _ h4)

/-- The aggregate observed after submit_report for the submitted player: the
previous aggregate (or a fresh one) with the new report folded in. -/
theorem submitReport_lookup_self (s : ServerState) (inp : ReportInput) (now : Nat) :
    lookupRep (submitReport s inp now).1.reputation (caseFold inp.username)
      = some (foldInto
          ((lookupRep s.reputation (caseFold inp.username)).getD
            (initRep inp (inp.timestamp.getD now)))
          inp (inp.timestamp.getD now)) := by
  simp [submitReport, lookupRep_updateRep_self]

/-- submit_report leaves every other player's aggregate unchanged. -/
theorem submitReport_lookup_other (s : ServerState) (inp : ReportInput) (now : Nat)
    (k' : String) (h : k' ≠ caseFold inp.username) :
    lookupRep (submitReport s inp now).1.reputation k' = lookupRep s.reputation k' := by
  simp [submitReport, lookupRep_updateRep_other _ _ _ _ h]

/-- Folding a report preserves count-and-length consistency and always
re-establishes the mean. -/
theorem aggWf_foldInto (rep : PlayerRep) (inp : ReportInput) (ts : Nat)
    (h1 : rep.total_reports = rep.risk_scores.length)
    (h2 : rep.formats .bullet + rep.formats .blitz + rep.formats .rapid
            = rep.total_reports) :
    aggWf (foldInto rep inp ts) := by
  refine ⟨?_, ?_, ?_⟩
  · simp [foldInto, h1]
  · cases hf : inp.game_format <;> simp [foldInto, hf] <;> omega
  · intro _
    simp [foldInto]

/-- submit_report keeps every aggregate in the state consistent. -/
theorem stateWf_submitReport (s : ServerState) (inp : ReportInput) (now : Nat)
    (hs : stateWf s) : stateWf (submitReport s inp now).1 := by
  intro kr hkr
  have hkr' : kr ∈ updateRep s.reputation (caseFold inp.username)
      (foldInto ((lookupRep s.reputation (caseFold inp.username)).getD
        (initRep inp (inp.timestamp.getD now))) inp (inp.timestamp.getD now)) := hkr
  rcases mem_updateRep _ _ _ _ hkr' with h1 | h2
  · rw [h1]
    show aggWf (foldInto ((lookupRep s.reputation (caseFold inp.username)).getD
      (initRep inp (inp.timestamp.getD now))) inp (inp.timestamp.getD now))
    cases hl : lookupRep s.reputation (caseFold inp.username) with
    | none =>
      rw [Option.getD_none]
      exact aggWf_foldInto _ _ _ (by simp [initRep]) (by simp [initRep])
    | some rep =>
      rw [Option.getD_some]
      obtain ⟨w1, w2, _⟩ := hs (caseFold inp.username, rep) (mem_of_lookupRep _ _ _ hl)
      exact aggWf_foldInto _ _ _ w1 w2
  · exact hs kr h2

/-- The empty state is consistent. -/
theorem stateWf_emptyState : stateWf emptyState := by
  intro kr hkr
  simp [emptyState] at hkr

/-- Affected aggregate after a batch of submissions for one username: the
scores accumulate in submission order and the mean is recomputed at every
fold. -/
theorem submitAll_lookup (inps : List ReportInput) (s : ServerState) (u : String)
    (now : Nat) (hu : ∀ i ∈ inps, i.username = u) (rep : PlayerRep)
    (hl : lookupRep s.reputation (caseFold u) = some rep)
    (h1 : rep.total_reports = rep.risk_scores.length) :
    ∃ rep', lookupRep (submitAll s inps now).reputation (caseFold u) = some rep' ∧
      rep'.risk_scores = rep.risk_scores ++ inps.map ReportInput.risk_score ∧
      rep'.total_reports = rep.total_reports + inps.length ∧
      rep'.total_reports = rep'.risk_scores.length ∧
      (inps ≠ [] →
        rep'.average_risk_score = rep'.risk_scores.sum / (rep'.risk_scores.length : ℚ)) ∧
      (inps = [] → rep' = rep) := by
  induction inps generalizing s rep with
  | nil =>
    refine ⟨rep, hl, by simp, by simp, h1, ?_, fun _ => rfl⟩
    intro h
    exact absurd rfl h
  | cons i rest ih =>
    have hiu : i.username = u := hu i (List.mem_cons_self _ _)
    have hstep : lookupRep (submitReport s i now).1.reputation (caseFold u)
        = some (foldInto rep i (i.timestamp.getD now)) := by
      have := submitReport_lookup_self s i now
      rw [hiu] at this
      rw [this, hl, Option.getD_some]
    have hfold1 : (foldInto rep i (i.timestamp.getD now)).total_reports
        = (foldInto rep i (i.timestamp.getD now)).risk_scores.length := by
      simp [foldInto, h1]
    obtain ⟨rep', hl', hsc, htot, hlen, havg, hnil⟩ :=
      ih (submitReport s i now).1 (fun j hj => hu j (List.mem_cons_of_mem _ hj))
        (foldInto rep i (i.timestamp.getD now)) hstep hfold1
    refine ⟨rep', ?_, ?_, ?_, hlen, ?_, ?_⟩
    · show lookupRep (submitAll (submitReport s i now).1 rest now).reputation
          (caseFold u) = some rep'
      exact hl'
    · rw [hsc]
      simp [foldInto]
    · rw [htot]
      simp [foldInto]
      omega
    · intro _
      rcases List.eq_nil_or_concat rest with hr | _
      · subst hr
        have := hnil rfl
        subst this
        simp [foldInto]
      · exact havg (by rename_i hr; obtain ⟨l, a, hra⟩ := hr; simp [hra])
    · intro hcons
      exact absurd hcons (List.cons_ne_nil _ _)

/-- Characterization of the confirmed outcome of the classification. -/
theorem confidence_eq_confirmed_iff (n : Nat) (a : ℚ) :
    calculateConfidenceLevel n a = .confirmed ↔ (10 ≤ n ∧ 80 ≤ a) := by
  unfold calculateConfidenceLevel
  split_ifs with h1 h2 h3 <;> simp_all

/-- Characterization of the high outcome of the classification. -/
theorem confidence_eq_high_iff (n : Nat) (a : ℚ) :
    calculateConfidenceLevel n a = .high
      ↔ (¬(10 ≤ n ∧ 80 ≤ a) ∧ (5 ≤ n ∧ 70 ≤ a)) := by
  unfold calculateConfidenceLevel
  split_ifs with h1 h2 h3 <;> simp_all

/-- Characterization of the medium outcome of the classification. -/
theorem confidence_eq_medium_iff (n : Nat) (a : ℚ) :
    calculateConfidenceLevel n a = .medium
      ↔ (¬(10 ≤ n ∧ 80 ≤ a) ∧ ¬(5 ≤ n ∧ 70 ≤ a) ∧ (3 ≤ n ∧ 60 ≤ a)) := by
  unfold calculateConfidenceLevel
  split_ifs with h1 h2 h3 <;> simp_all

/-- Characterization of the low outcome of the classification. -/
theorem confidence_eq_low_iff (n : Nat) (a : ℚ) :
    calculateConfidenceLevel n a = .low
      ↔ (¬(10 ≤ n ∧ 80 ≤ a) ∧ ¬(5 ≤ n ∧ 70 ≤ a) ∧ ¬(3 ≤ n ∧ 60 ≤ a)) := by
  unfold calculateConfidenceLevel
  split_ifs with h1 h2 h3 <;> simp_all

/-- One step of the concrete submission scenario: submit and record the
confidence level the handler reports. -/
def scenarioStep (p : ServerState × List ConfLevel) (inp : ReportInput) :
    ServerState × List ConfLevel :=
  let r := submitReport p.1 inp 0
  (r.1, p.2 ++ [r.2.confidence_level])

/-- The concrete scenario of the spec: four reports with scores 50, 50, 75,
90 for one fresh username. -/
def scenarioInputs : List ReportInput :=
  [mkInput "SuspectPlayer" 50 1, mkInput "SuspectPlayer" 50 2,
   mkInput "SuspectPlayer" 75 3, mkInput "SuspectPlayer" 90 4]

/-- Final state of the scenario together with the reported levels. -/
def scenarioTrace : ServerState × List ConfLevel :=
  scenarioInputs.foldl scenarioStep (emptyState, [])

/-- C3: the classification returns confirmed iff reports ≥ 10 and average
≥ 80, else high iff reports ≥ 5 and average ≥ 70, else medium iff reports
≥ 3 and average ≥ 60, else low, in strict priority order; and the
submission sequence 50, 50, 75, 90 for a fresh username yields the levels
low, low, low, medium with final average 66.25. -/
theorem confidence_classification_spec :
    (∀ (n : Nat) (a : ℚ),
      (calculateConfidenceLevel n a = .confirmed ↔ (10 ≤ n ∧ 80 ≤ a)) ∧
      (calculateConfidenceLevel n a = .high
        ↔ (¬(10 ≤ n ∧ 80 ≤ a) ∧ (5 ≤ n ∧ 70 ≤ a))) ∧
      (calculateConfidenceLevel n a = .medium
        ↔ (¬(10 ≤ n ∧ 80 ≤ a) ∧ ¬(5 ≤ n ∧ 70 ≤ a) ∧ (3 ≤ n ∧ 60 ≤ a))) ∧
      (calculateConfidenceLevel n a = .low
        ↔ (¬(10 ≤ n ∧ 80 ≤ a) ∧ ¬(5 ≤ n ∧ 70 ≤ a) ∧ ¬(3 ≤ n ∧ 60 ≤ a)))) ∧
    scenarioTrace.2 = [.low, .low, .low, .medium] ∧
    (lookupRep scenarioTrace.1.reputation (caseFold "SuspectPlayer")).map
        PlayerRep.average_risk_score = some (66.25 : ℚ) := by
  refine ⟨fun n a => ⟨confidence_eq_confirmed_iff n a, confidence_eq_high_iff n a,
    confidence_eq_medium_iff n a, confidence_eq_low_iff n a⟩, ?_, ?_⟩
  · norm_num [scenarioTrace, scenarioInputs, scenarioStep, submitReport, foldInto,
      initRep, mkInput, updateRep, lookupRep, calculateConfidenceLevel, emptyState,
      List.foldl]
  · norm_num [scenarioTrace, scenarioInputs, scenarioStep, submitReport, foldInto,
      initRep, mkInput, updateRep, lookupRep, calculateConfidenceLevel, emptyState,
      List.foldl]

/-- C7: the classification is monotone in the report count and the average
risk score, with respect to the tier order low < medium < high <
confirmed. -/
theorem confidence_level_monotone (r1 r2 : Nat) (a1 a2 : ℚ) (hr : r1 ≤ r2)
    (ha : a1 ≤ a2) :
    (calculateConfidenceLevel r1 a1).rank ≤ (calculateConfidenceLevel r2 a2).rank := by
  rcases h1 : calculateConfidenceLevel r1 a1 with _ | _ | _ | _
  case low => simp [ConfLevel.rank]
  case medium =>
    obtain ⟨-, -, hm⟩ := (confidence_eq_medium_iff r1 a1).mp h1
    have h2 : 3 ≤ r2 ∧ 60 ≤ a2 := ⟨le_trans hm.1 hr, le_trans hm.2 ha⟩
    rcases hl2 : calculateConfidenceLevel r2 a2 with _ | _ | _ | _
    · obtain ⟨-, -, hlow⟩ := (confidence_eq_low_iff r2 a2).mp hl2
      exact absurd h2 hlow
    all_goals simp [ConfLevel.rank]
  case high =>
    obtain ⟨-, hh⟩ := (confidence_eq_high_iff r1 a1).mp h1
    have h2 : 5 ≤ r2 ∧ 70 ≤ a2 := ⟨le_trans hh.1 hr, le_trans hh.2 ha⟩
    rcases hl2 : calculateConfidenceLevel r2 a2 with _ | _ | _ | _
    · obtain ⟨-, hlow, -⟩ := (confidence_eq_low_iff r2 a2).mp hl2
      exact absurd h2 hlow
    · obtain ⟨-, hmed, -⟩ := (confidence_eq_medium_iff r2 a2).mp hl2
      exact absurd h2 hmed
    all_goals simp [ConfLevel.rank]
  case confirmed =>
    obtain ⟨hc1, hc2⟩ := (confidence_eq_confirmed_iff r1 a1).mp h1
    have h2 : calculateConfidenceLevel r2 a2 = .confirmed :=
      (confidence_eq_confirmed_iff r2 a2).mpr ⟨le_trans hc1 hr, le_trans hc2 ha⟩
    rw [h2]

/-- Witness for the monotonicity theorem at a concrete pair of points. -/
theorem confidence_level_monotone_witness :
    (calculateConfidenceLevel 3 60).rank ≤ (calculateConfidenceLevel 10 80).rank :=
  confidence_level_monotone 3 10 60 80 (by norm_num) (by norm_num)

/-- Unfolding of mark_player_banned when the aggregate exists. -/
theorem markPlayerBanned_found (s : ServerState) (u : String) (rep : PlayerRep)
    (b : Bool) (h : lookupRep s.reputation (caseFold u) = some rep) :
    markPlayerBanned s u b
      = ({ s with
             reputation := (updateRep s.reputation (caseFold u)
                 { rep with
                     is_banned := b
                     confidence_level :=
                       if b then .confirmed else rep.confidence_level }) },
         .ok ("Player " ++ u ++ " marked as " ++ (if b then "banned" else "not banned"))
           u b) := by
  simp only [markPlayerBanned]
  rw [h]

/-- C10: mark_player_banned on a username with no aggregate leaves the
state untouched (nothing is saved) and surfaces the generic 500
internal-error wrapping the not-found message, because the handler's
catch-all except clause catches its own HTTPException(404) and re-raises
it as a 500. -/
theorem ban_missing_player_internal_error (s : ServerState) (u : String) (b : Bool)
    (h : lookupRep s.reputation (caseFold u) = none) :
    markPlayerBanned s u b = (s, .httpError 500 (exceptionStr 404 "Player not found")) := by
  simp only [markPlayerBanned]
  rw [h]

/-- Witness: banning an unknown username on the empty state. -/
theorem ban_missing_player_internal_error_witness :
    markPlayerBanned emptyState "Ghost" true
      = (emptyState, .httpError 500 (exceptionStr 404 "Player not found")) :=
  ban_missing_player_internal_error emptyState "Ghost" true rfl

/-- C9: mark_player_banned with banned = false clears is_banned and leaves
the confidence level and every other field of the aggregate, and the raw
report log, exactly as they were; the confidence level is not recomputed. -/
theorem unban_preserves_confidence_and_fields (s : ServerState) (u : String)
    (rep : PlayerRep) (h : lookupRep s.reputation (caseFold u) = some rep) :
    (markPlayerBanned s u false).1.reports = s.reports ∧
    lookupRep (markPlayerBanned s u false).1.reputation (caseFold u)
      = some { rep with is_banned := false } := by
  rw [markPlayerBanned_found s u rep false h]
  refine ⟨rfl, ?_⟩
  show lookupRep (updateRep s.reputation (caseFold u)
          { rep with
              is_banned := false
              confidence_level :=
                if false then ConfLevel.confirmed else rep.confidence_level })
        (caseFold u)
      = some { rep with is_banned := false }
  rw [lookupRep_updateRep_self]
  rfl

/-- Concrete report input used by the ban/unban witnesses. -/
def inpW9 : ReportInput := mkInput "Foo" 50 1

/-- The aggregate created by submitting that input on the empty state. -/
def repW9 : PlayerRep := foldInto (initRep inpW9 1) inpW9 1

/-- The state after submitting that input on the empty state. -/
def stateW9 : ServerState := (submitReport emptyState inpW9 0).1

/-- Witness: unbanning the one player of a concrete one-player state. -/
theorem unban_preserves_confidence_witness :
    (markPlayerBanned stateW9 "Foo" false).1.reports = stateW9.reports ∧
    lookupRep (markPlayerBanned stateW9 "Foo" false).1.reputation (caseFold "Foo")
      = some { repW9 with is_banned := false } :=
  unban_preserves_confidence_and_fields stateW9 "Foo" repW9 rfl

/-- C1 (amended): set_banned(user, true) does force the confidence level to
confirmed at the time of the call, but every subsequent submit_report
recomputes the confidence level from the updated count and average with no
is_banned check, so a banned aggregate does not stay confirmed. -/
theorem submit_recomputes_confidence_ban_forces_confirmed :
    (∀ (s : ServerState) (inp : ReportInput) (now : Nat) (rep' : PlayerRep),
      lookupRep (submitReport s inp now).1.reputation (caseFold inp.username)
        = some rep' →
      rep'.confidence_level
        = calculateConfidenceLevel rep'.total_reports rep'.average_risk_score) ∧
    (∀ (s : ServerState) (u : String) (rep : PlayerRep),
      lookupRep s.reputation (caseFold u) = some rep →
      lookupRep (markPlayerBanned s u true).1.reputation (caseFold u)
        = some { rep with is_banned := true, confidence_level := .confirmed }) := by
  constructor
  · intro s inp now rep' h
    rw [submitReport_lookup_self] at h
    injection h with h
    subst h
    simp [foldInto]
  · intro s u rep h
    rw [markPlayerBanned_found s u rep true h]
    show lookupRep (updateRep s.reputation (caseFold u)
            { rep with
                is_banned := true
                confidence_level :=
                  if true then ConfLevel.confirmed else rep.confidence_level })
          (caseFold u)
        = some { rep with is_banned := true, confidence_level := .confirmed }
    rw [lookupRep_updateRep_self]
    rfl

/-- Witness for the amended C1 theorem at concrete inputs. -/
theorem submit_recomputes_confidence_witness :
    repW9.confidence_level
      = calculateConfidenceLevel repW9.total_reports repW9.average_risk_score ∧
    lookupRep (markPlayerBanned stateW9 "Foo" true).1.reputation (caseFold "Foo")
      = some { repW9 with is_banned := true, confidence_level := .confirmed } :=
  ⟨submit_recomputes_confidence_ban_forces_confirmed.1 emptyState inpW9 0 repW9 rfl,
   submit_recomputes_confidence_ban_forces_confirmed.2 stateW9 "Foo" repW9 rfl⟩

/-- State reached by: submit one report with score 50 for Foo, ban Foo
(forcing confirmed), then submit a second report with score 0. -/
def stateC1 : ServerState :=
  (submitReport (markPlayerBanned stateW9 "Foo" true).1 (mkInput "Foo" 0 2) 0).1

/-- Counterexample to C1 as stated: after the second report the aggregate
is still banned but its confidence level has been recomputed to low, so
is_banned = true does not imply confidence_level = confirmed. -/
theorem submit_clears_ban_confidence_cex :
    (lookupRep stateC1.reputation (caseFold "Foo")).map
        (fun rep => (rep.is_banned, rep.confidence_level))
      = some (true, ConfLevel.low) ∧ ConfLevel.low ≠ ConfLevel.confirmed := by
  refine ⟨?_, by decide⟩
  norm_num [stateC1, stateW9, inpW9, mkInput, submitReport, markPlayerBanned,
    foldInto, initRep, updateRep, lookupRep, calculateConfidenceLevel, emptyState]

/-- Concrete report input used by the save-failure scenario. -/
def inpC2 : ReportInput := mkInput "SaveFail" 50 1

/-- Counterexample to C2 as stated: when the save fails, the caller still
receives the success result, not a distinct not-saved failure. -/
theorem save_failure_returns_success_cex :
    (submitReportWithSave emptyState inpC2 0 false).2.success = true ∧
    (submitReportWithSave emptyState inpC2 0 false).2.message
      = "Report submitted successfully" :=
  ⟨rfl, rfl⟩

/-- C2 (amended): a save failure is swallowed by save_reports (only
logged), so the handler's response is identical to the success case and
reports success; the previously persisted state is left exactly as it
was. -/
theorem save_failure_swallowed (s : ServerState) (inp : ReportInput) (now : Nat) :
    (submitReportWithSave s inp now false).1 = s ∧
    (submitReportWithSave s inp now false).2 = (submitReport s inp now).2 ∧
    (submitReportWithSave s inp now false).2.success = true :=
  ⟨rfl, rfl, rfl⟩

/-- State reached by submitting a report as Foo and then one as FOO. -/
def stateC4 : ServerState :=
  (submitReport (submitReport emptyState (mkInput "Foo" 50 1) 0).1
    (mkInput "FOO" 60 2) 0).1

/-- Counterexample to C4 as stated: after a second report with casing FOO,
the stored display username is still the first casing Foo, not the most
recent one. -/
theorem display_username_not_updated_cex :
    (lookupRep stateC4.reputation (caseFold "FOO")).map PlayerRep.username
      = some "Foo" ∧ "Foo" ≠ "FOO" := by
  refine ⟨?_, by decide⟩
  rfl

/-- C4 (amended): the stored display username is the casing supplied by
the first report that created the aggregate; submit_report on an existing
aggregate never updates it. -/
theorem display_username_first_casing (s : ServerState) (inp : ReportInput)
    (now : Nat) :
    (lookupRep (submitReport s inp now).1.reputation (caseFold inp.username)).map
        PlayerRep.username
      = some (match lookupRep s.reputation (caseFold inp.username) with
              | some rep => rep.username
              | none => inp.username) := by
  rw [submitReport_lookup_self]
  cases hl : lookupRep s.reputation (caseFold inp.username) <;>
    simp [foldInto, initRep]

/-- State reached by submitting a report with timestamp 10 and then one
with the earlier explicit timestamp 5 for the same username. -/
def stateC5 : ServerState :=
  (submitReport (submitReport emptyState (mkInput "TimeTravel" 50 10) 0).1
    (mkInput "TimeTravel" 50 5) 0).1

/-- Counterexample to C5 as stated: the folded timestamps are 10 and 5,
but the aggregate records first_reported = 10 and last_reported = 5 — the
submission order, not the earliest and the most recent timestamp. -/
theorem timestamps_submission_order_cex :
    stateC5.reports.map Report.timestamp = [10, 5] ∧
    (lookupRep stateC5.reputation (caseFold "TimeTravel")).map
        (fun rep => (rep.first_reported, rep.last_reported)) = some (10, 5) ∧
    ((10 : Nat), (5 : Nat)) ≠ (min 10 5, max 10 5) := by
  refine ⟨rfl, rfl, by decide⟩

/-- C5 (amended): first_reported is the timestamp of the report that
created the aggregate and stays fixed thereafter, and last_reported is
always the timestamp of the most recently submitted report, even when that
timestamp is earlier than previously folded ones. -/
theorem first_last_reported_submission_order (s : ServerState) (inp : ReportInput)
    (now : Nat) :
    (lookupRep (submitReport s inp now).1.reputation (caseFold inp.username)).map
        (fun rep => (rep.first_reported, rep.last_reported))
      = some (match lookupRep s.reputation (caseFold inp.username) with
              | some rep => rep.first_reported
              | none => inp.timestamp.getD now,
              inp.timestamp.getD now) := by
  rw [submitReport_lookup_self]
  cases hl : lookupRep s.reputation (caseFold inp.username) <;>
    simp [foldInto, initRep]

/-- C6: after submit_report on a consistent state every aggregate is still
consistent; the affected aggregate stores the mean of its scores, per-format
counts summing to its total, and a total equal to the number of stored
scores; and a fresh sequence of submissions with scores qs yields total
qs.length and average mean qs. -/
theorem submit_preserves_aggregate_invariants :
    (∀ (s : ServerState) (inp : ReportInput) (now : Nat),
      stateWf s → stateWf (submitReport s inp now).1) ∧
    (∀ (s : ServerState) (inp : ReportInput) (now : Nat) (rep' : PlayerRep),
      stateWf s →
      lookupRep (submitReport s inp now).1.reputation (caseFold inp.username)
        = some rep' →
      rep'.average_risk_score = rep'.risk_scores.sum / (rep'.risk_scores.length : ℚ) ∧
      rep'.formats .bullet + rep'.formats .blitz + rep'.formats .rapid
        = rep'.total_reports ∧
      rep'.total_reports = rep'.risk_scores.length) ∧
    (∀ (qs : List ℚ) (u : String) (now : Nat), qs ≠ [] →
      (lookupRep (submitAll emptyState (qs.map (fun p => mkInput u p 0)) now).reputation
          (caseFold u)).map (fun rep => (rep.total_reports, rep.average_risk_score))
        = some (qs.length, qs.sum / (qs.length : ℚ))) := by
  refine ⟨stateWf_submitReport, ?_, ?_⟩
  · intro s inp now rep' hs hl
    obtain ⟨w1, w2, w3⟩ :=
      stateWf_submitReport s inp now hs (caseFold inp.username, rep')
        (mem_of_lookupRep _ _ _ hl)
    have hne : rep'.risk_scores ≠ [] := by
      rw [submitReport_lookup_self] at hl
      injection hl with hl
      rw [← hl]
      simp [foldInto]
    exact ⟨w3 hne, w2, w1⟩
  · intro qs u now hq
    cases qs with
    | nil => exact absurd rfl hq
    | cons q qrest =>
      have hstep : lookupRep (submitReport emptyState (mkInput u q 0) now).1.reputation
          (caseFold u)
          = some (foldInto (initRep (mkInput u q 0) 0) (mkInput u q 0) 0) := by
        have h := submitReport_lookup_self emptyState (mkInput u q 0) now
        simpa [mkInput, emptyState, lookupRep] using h
      have h1 : (foldInto (initRep (mkInput u q 0) 0) (mkInput u q 0) 0).total_reports
          = (foldInto (initRep (mkInput u q 0) 0) (mkInput u q 0) 0).risk_scores.length := by
        simp [foldInto, initRep]
      obtain ⟨rep', hl', hsc, htot, hlen, havg, hnil⟩ :=
        submitAll_lookup (qrest.map (fun p => mkInput u p 0))
          (submitReport emptyState (mkInput u q 0) now).1 u now
          (by
            intro i hi
            obtain ⟨p, hp, hpi⟩ := List.mem_map.mp hi
            rw [← hpi]
            rfl)
          (foldInto (initRep (mkInput u q 0) 0) (mkInput u q 0) 0) hstep h1
      have hfold : submitAll emptyState ((q :: qrest).map (fun p => mkInput u p 0)) now
          = submitAll (submitReport emptyState (mkInput u q 0) now).1
              (qrest.map (fun p => mkInput u p 0)) now := by
        simp [submitAll]
      rw [hfold, hl']
      have hscores : rep'.risk_scores = q :: qrest := by
        rw [hsc]
        simp [foldInto, initRep, mkInput, List.map_map, Function.comp_def]
      have htotal : rep'.total_reports = (q :: qrest).length := by
        rw [htot]
        simp [foldInto, initRep]
        omega
      have havg' : rep'.average_risk_score
          = rep'.risk_scores.sum / (rep'.risk_scores.length : ℚ) := by
        cases hqr : qrest with
        | nil =>
          have hre := hnil (by simp [hqr])
          rw [hre]
          simp [foldInto, initRep]
        | cons r rs =>
          exact havg (by simp [hqr])
      have hpair : (rep'.total_reports, rep'.average_risk_score)
          = ((q :: qrest).length, (q :: qrest).sum / (((q :: qrest).length : Nat) : ℚ)) := by
        rw [havg', hscores, htotal]
      simp only [Option.map_some']
      rw [hpair]

/-- Witness: submitting the fresh score sequence 50, 75 yields two reports
with average 62.5. -/
theorem submit_preserves_aggregate_invariants_witness :
    (lookupRep (submitAll emptyState ([(50 : ℚ), 75].map (fun p => mkInput "Foo" p 0))
          0).reputation (caseFold "Foo")).map
        (fun rep => (rep.total_reports, rep.average_risk_score))
      = some (2, (62.5 : ℚ)) := by
  have h := submit_preserves_aggregate_invariants.2.2 [(50 : ℚ), 75] "Foo" 0 (by simp)
  rw [h]
  norm_num

/-- C8: search keeps exactly the aggregates meeting both thresholds and the
optional confidence filter, sorts them by total_reports descending, reports
the pre-truncation match count, and truncates the list to at most limit
entries. -/
theorem search_filters_sorts_truncates (s : ServerState) (minReports : Nat)
    (minRisk : ℚ) (conf : Option ConfLevel) (limit : Nat) :
    (searchSuspiciousPlayers s minReports minRisk conf limit).total_found
      = ((s.reputation.filter
            (fun kr => matchesSearch minReports minRisk conf kr.2)).map
          (fun kr => searchEntryOf kr.2)).length ∧
    (searchSorted s minReports minRisk conf).Perm
      ((s.reputation.filter
          (fun kr => matchesSearch minReports minRisk conf kr.2)).map
        (fun kr => searchEntryOf kr.2)) ∧
    List.Pairwise (fun a b => b.total_reports ≤ a.total_reports)
      (searchSorted s minReports minRisk conf) ∧
    (searchSuspiciousPlayers s minReports minRisk conf limit).players
      = (searchSorted s minReports minRisk conf).take limit ∧
    (searchSuspiciousPlayers s minReports minRisk conf limit).players.length
      ≤ limit := by
  have hperm : (searchSorted s minReports minRisk conf).Perm
      (searchFiltered s minReports minRisk conf) := List.mergeSort_perm _ _
  refine ⟨?_, hperm, ?_, rfl, ?_⟩
  · show (searchSorted s minReports minRisk conf).length = _
    rw [hperm.length_eq]
    rfl
  · have htrans : ∀ (a b c : SearchEntry),
        decide (b.total_reports ≤ a.total_reports) = true →
        decide (c.total_reports ≤ b.total_reports) = true →
        decide (c.total_reports ≤ a.total_reports) = true := by
      intro a b c h1 h2
      simp only [decide_eq_true_eq] at *
      omega
    have htotal : ∀ (a b : SearchEntry),
        (decide (b.total_reports ≤ a.total_reports)
          || decide (a.total_reports ≤ b.total_reports)) = true := by
      intro a b
      simp only [Bool.or_eq_true, decide_eq_true_eq]
      omega
    have hs := List.sorted_mergeSort htrans htotal
      (searchFiltered s minReports minRisk conf)
    simpa only [searchSorted, decide_eq_true_eq] using hs
  · show ((searchSorted s minReports minRisk conf).take limit).length ≤ limit
    rw [List.length_take]
    exact min_le_left _ _

end AntiCheat
